import Mathlib

/-!
Verification of the cart / catalog subsystem of the Palnesto e-commerce
frontend.

The development shallowly embeds the relevant TypeScript sources:
* the localStorage cart store (`src/lib/cart.ts`): `getCart`, `addToCart`,
  `removeFromCart`, `updateCartItemQuantity`, `clearCart`,
  `calculateTotalAmount`;
* the cart reconciliation logic of the `Cart` component
  (`fetchCartShirts` and the total refresh, `src/components/Cart.tsx`);
* the reference-data cache (`src/lib/referenceData.ts`): `extractFromShirt`
  and the four lookup helpers;
* the backend-record normalizer (`src/lib/api.ts`): `extractSize`,
  `extractType`, `extractImageUrl`, `mapBackendShirtToShirt`.

Numbers are modelled as `Int` (all claim arithmetic is exact addition and
multiplication, so no floating-point behaviour is involved).  The
localStorage round trip is modelled by holding the cart state directly:
every store operation reads the whole cart and writes the whole cart back
synchronously.  `JSON.parse` is treated as a trusted primitive: a persisted
value is modelled by its parse outcome (absent, parse failure, or a parsed
JSON value).
-/

/-- JSON values, used to model the raw result of `JSON.parse` in `getCart`.
The source returns that result unchecked, so the model must keep the full
generality of JSON rather than a cart shape. -/
inductive Json where
  | null : Json
  | bool (b : Bool) : Json
  | num (n : Int) : Json
  | str (s : String) : Json
  | arr (elems : List Json) : Json
  | obj (fields : List (String × Json)) : Json

/-- The value `getCart` builds when storage is absent or unparseable:
the literal `\x7b items: [], totalAmount: 0 \x7d` from `src/lib/cart.ts`. -/
def emptyCartJson : Json :=
  Json.obj [("items", Json.arr []), ("totalAmount", Json.num 0)]

/-- Model of `getCart` from `src/lib/cart.ts` at the storage level.
`none` models an absent key (or the falsy empty string), `some (.error ())`
a stored text on which `JSON.parse` throws (caught by the `try`), and
`some (.ok v)` a stored text that parses to the JSON value `v`, which the
source returns as is, without validating its shape. -/
def getCart (stored : Option (Except Unit Json)) : Json :=
  match stored with
  | none => emptyCartJson
  | some (Except.error _) => emptyCartJson
  | some (Except.ok v) => v

/-- The `ShirtSize` string union from `src/types/index.ts`. -/
inductive ShirtSize where
  | M | L | XL | XXL
deriving DecidableEq

/-- The `ShirtType` string union from `src/types/index.ts`. -/
inductive ShirtType where
  | Casual | Formal | Wedding | Sports | Vintage
deriving DecidableEq

/-- The frontend `Shirt` record from `src/types/index.ts` (one purchasable
size variant). -/
structure Shirt where
  id : String
  name : String
  description : String
  imageUrl : String
  originalPrice : Int
  discountedPrice : Int
  size : ShirtSize
  type : ShirtType
  stock : Int
deriving DecidableEq

/-- The `CartItem` record from `src/types/index.ts`: `size` is optional
(the comment there says it is for matching the correct variant). -/
structure CartItem where
  shirtId : String
  size : Option ShirtSize
  quantity : Int
deriving DecidableEq

/-- The `Cart` record from `src/types/index.ts`. -/
structure Cart where
  items : List CartItem
  totalAmount : Int
deriving DecidableEq

/-- The empty cart returned by `getCart` when storage is absent. -/
def emptyCart : Cart := { items := [], totalAmount := 0 }

/-- Replace the first element satisfying `p` by its image under `f`,
modelling the JavaScript pattern `const x = list.find(p); x.field = ...`
which mutates the first match in place. -/
def updateFirst {α : Type} (p : α → Bool) (f : α → α) : List α → List α
  | [] => []
  | x :: xs => if p x then f x :: xs else x :: updateFirst p f xs

/-- `addToCart` from `src/lib/cart.ts`: merge into the first line with the
same `shirtId` by adding the quantity, else push a new line.  The source
function declares only `(shirtId, quantity)`; a product page passes a third
size argument which JavaScript discards, so no size is ever stored. -/
def addToCart (shirtId : String) (quantity : Int) (cart : Cart) : Cart :=
  if cart.items.any (fun item => item.shirtId = shirtId) then
    { cart with
        items := updateFirst (fun item => item.shirtId = shirtId)
          (fun item => { item with quantity := item.quantity + quantity })
          cart.items }
  else
    { cart with
        items := cart.items ++ [{ shirtId := shirtId, size := none, quantity := quantity }] }

/-- `removeFromCart` from `src/lib/cart.ts`: drop every line whose
`shirtId` matches. -/
def removeFromCart (shirtId : String) (cart : Cart) : Cart :=
  { cart with items := cart.items.filter (fun item => item.shirtId ≠ shirtId) }

/-- `updateCartItemQuantity` from `src/lib/cart.ts`: if a line with the id
exists, a quantity of zero or below delegates to `removeFromCart`, and a
positive quantity overwrites the quantity of the first matching line. -/
def updateCartItemQuantity (shirtId : String) (quantity : Int) (cart : Cart) : Cart :=
  if cart.items.any (fun item => item.shirtId = shirtId) then
    if quantity ≤ 0 then
      removeFromCart shirtId cart
    else
      { cart with
          items := updateFirst (fun item => item.shirtId = shirtId)
            (fun item => { item with quantity := quantity })
            cart.items }
  else
    cart

/-- `calculateTotalAmount` from `src/lib/cart.ts`: fold over the cart
lines, looking each line up among `shirts` by `s.id === item.shirtId` and
adding `discountedPrice * quantity` on a hit, nothing on a miss. -/
def calculateTotalAmount (cart : Cart) (shirts : List Shirt) : Int :=
  cart.items.foldl
    (fun total item =>
      match shirts.find? (fun s => s.id = item.shirtId) with
      | some s => total + s.discountedPrice * item.quantity
      | none => total)
    0

/-- One user-level cart store operation (`clearCart` removes the storage
key, so a following read yields the empty cart). -/
inductive CartOp where
  | add (shirtId : String) (quantity : Int)
  | setQty (shirtId : String) (quantity : Int)
  | remove (shirtId : String)
  | clear
deriving DecidableEq

/-- Apply one store operation to the persisted cart state. -/
def applyOp (cart : Cart) (op : CartOp) : Cart :=
  match op with
  | CartOp.add d q => addToCart d q cart
  | CartOp.setQty d q => updateCartItemQuantity d q cart
  | CartOp.remove d => removeFromCart d cart
  | CartOp.clear => emptyCart

/-- Run a sequence of store operations from the empty cart. -/
def execOps (ops : List CartOp) : Cart :=
  ops.foldl applyOp emptyCart

/-- `true` when an `add` operation carries a positive quantity; non-`add`
operations pass trivially. -/
def addQtyPositive : CartOp → Bool
  | CartOp.add _ q => 1 ≤ q
  | _ => true

/-- Total quantity carried by the lines of `l` whose `shirtId` is `d`. -/
def qtyList (l : List CartItem) (d : String) : Int :=
  ((l.filter (fun item => item.shirtId = d)).map (fun item => item.quantity)).sum

/-- Total quantity a cart records for the design `d`. -/
def qtyOf (cart : Cart) (d : String) : Int :=
  qtyList cart.items d

/-- Variant list obtained for one design id: the per-design
`fetchShirtVariantsByDesignId` call in `fetchCartShirts` is wrapped in a
`try/catch` that turns a failed fetch into the empty list. -/
def variantsFor (fetch : String → Except Unit (List Shirt)) (d : String) : List Shirt :=
  match fetch d with
  | Except.ok l => l
  | Except.error _ => []

/-- The per-line variant selection inside `fetchCartShirts`
(`src/components/Cart.tsx`): with a non-empty variant list, try an exact
size match when the line records a size, then the first variant with
positive stock, then the first variant; with an empty list the line stays
unresolved. -/
def resolveItem (variants : List Shirt) (item : CartItem) : Option Shirt :=
  if variants.isEmpty then none
  else
    let exact : Option Shirt :=
      match item.size with
      | some s => variants.find? (fun v => v.size = s)
      | none => none
    match exact with
    | some v => some v
    | none =>
      match variants.find? (fun v => v.stock > 0) with
      | some v => some v
      | none => variants.head?

/-- `fetchCartShirts` from `src/components/Cart.tsx`: resolve every cart
line against its design-id fetch result and collect the resolved variants,
skipping a variant whose id is already present (dedup by variant id). -/
def fetchCartShirts (cart : Cart) (fetch : String → Except Unit (List Shirt)) : List Shirt :=
  cart.items.foldl
    (fun acc item =>
      match resolveItem (variantsFor fetch item.shirtId) item with
      | some v => if acc.any (fun s => s.id = v.id) then acc else acc ++ [v]
      | none => acc)
    []

/-- `cartShirts.length > 0 ? cartShirts : shirts` from the `Cart`
component: the fetched list when non-empty, else the fallback prop. -/
def availableShirts (cartShirts fallback : List Shirt) : List Shirt :=
  if cartShirts.isEmpty then fallback else cartShirts

/-- The total the `Cart` component displays after a reconciliation pass:
`calculateTotalAmount(currentCart, availableShirts)` computed in
`refreshCart` with the `fetchCartShirts` result. -/
def refreshCartTotal (cart : Cart) (fetch : String → Except Unit (List Shirt))
    (fallback : List Shirt) : Int :=
  calculateTotalAmount cart (availableShirts (fetchCartShirts cart fetch) fallback)

/-- `SizeReference` from `src/types/index.ts`. -/
structure SizeReference where
  _id : String
  name : ShirtSize
  displayName : String
deriving DecidableEq

/-- `ShirtTypeReference` from `src/types/index.ts`. -/
structure ShirtTypeReference where
  _id : String
  name : ShirtType
deriving DecidableEq

/-- The fields of the raw `BackendShirt` record (`src/types/index.ts`)
consumed by the normalizer and the reference cache.  The `shirtType` and
`shirtSize` fields are unions of a populated reference object and a plain
string, modelled as sums. -/
structure BackendShirt where
  _id : String
  name : String
  description : Option String
  sizeRef : Option SizeReference
  sizeReference : Option SizeReference
  shirtSize : Option (SizeReference ⊕ ShirtSize)
  size : Option ShirtSize
  shirtTypeId : Option String
  shirtType : Option (ShirtTypeReference ⊕ ShirtType)
  type : Option ShirtType
  price : Int
  finalPrice : Int
  stock : Option Int
  imageURL : Option String
deriving DecidableEq

/-- Upsert into an association list, modelling `Map.set`: replace the
value of an existing key in place, else append the pair. -/
def mset {κ α : Type} [DecidableEq κ] (m : List (κ × α)) (k : κ) (v : α) : List (κ × α) :=
  match m with
  | [] => [(k, v)]
  | (k', v') :: rest => if k' = k then (k, v) :: rest else (k', v') :: mset rest k v

/-- Lookup in an association list, modelling `Map.get`. -/
def mget {κ α : Type} [DecidableEq κ] (m : List (κ × α)) (k : κ) : Option α :=
  (m.find? (fun p => p.1 = k)).map (fun p => p.2)

/-- The four maps of `ReferenceDataCache` in `src/lib/referenceData.ts`. -/
structure ReferenceDataCache where
  sizes : List (ShirtSize × String)
  types : List (ShirtType × String)
  sizeObjects : List (String × SizeReference)
  typeObjects : List (String × ShirtTypeReference)
deriving DecidableEq

/-- The cache state at process start (all maps empty). -/
def emptyReferenceCache : ReferenceDataCache :=
  { sizes := [], types := [], sizeObjects := [], typeObjects := [] }

/-- The size half of `extractFromShirt`: `sizeRef` first, else
`sizeReference`; a populated object stores both the name-to-id and the
id-to-object direction, an unpopulated record is a no-op. -/
def recordSizeFromShirt (c : ReferenceDataCache) (b : BackendShirt) : ReferenceDataCache :=
  match b.sizeRef with
  | some r =>
      { c with sizes := mset c.sizes r.name r._id,
               sizeObjects := mset c.sizeObjects r._id r }
  | none =>
    match b.sizeReference with
    | some r =>
        { c with sizes := mset c.sizes r.name r._id,
                 sizeObjects := mset c.sizeObjects r._id r }
    | none => c

/-- The type half of `extractFromShirt`: a populated `shirtType` object
with a truthy `_id` stores both directions; a plain-string `shirtType`
stores nothing (the object check fails and the legacy branch is not
reached); with no `shirtType` at all, truthy legacy `type` and
`shirtTypeId` fields store the name-to-id direction only. -/
def recordTypeFromShirt (c : ReferenceDataCache) (b : BackendShirt) : ReferenceDataCache :=
  match b.shirtType with
  | some (Sum.inl r) =>
      if r._id = "" then c
      else
        { c with types := mset c.types r.name r._id,
                 typeObjects := mset c.typeObjects r._id r }
  | some (Sum.inr _) => c
  | none =>
    match b.type, b.shirtTypeId with
    | some t, some tid =>
        if tid = "" then c else { c with types := mset c.types t tid }
    | _, _ => c

/-- `extractFromShirt` from `src/lib/referenceData.ts`: record the size
references, then the type references, of one raw backend record. -/
def extractFromShirt (c : ReferenceDataCache) (b : BackendShirt) : ReferenceDataCache :=
  recordTypeFromShirt (recordSizeFromShirt c b) b

/-- `getSizeId`: `this.cache.sizes.get(size) || null`, the falsy empty
string collapsing to `null`. -/
def getSizeId (c : ReferenceDataCache) (size : ShirtSize) : Option String :=
  match mget c.sizes size with
  | some v => if v = "" then none else some v
  | none => none

/-- `getTypeId`: `this.cache.types.get(type) || null`. -/
def getTypeId (c : ReferenceDataCache) (type : ShirtType) : Option String :=
  match mget c.types type with
  | some v => if v = "" then none else some v
  | none => none

/-- `getSizeName`: look the id up in `sizeObjects` and return its name. -/
def getSizeName (c : ReferenceDataCache) (sizeId : String) : Option ShirtSize :=
  match mget c.sizeObjects sizeId with
  | some o => some o.name
  | none => none

/-- `getTypeName`: look the id up in `typeObjects` and return its name. -/
def getTypeName (c : ReferenceDataCache) (typeId : String) : Option ShirtType :=
  match mget c.typeObjects typeId with
  | some o => some o.name
  | none => none

/-- `extractSize` from `src/lib/api.ts`: `sizeReference` first, then
`sizeRef`, then the legacy `shirtSize` (object or plain string), then the
legacy `size`, with the fixed fallback `M`. -/
def extractSize (b : BackendShirt) : ShirtSize :=
  match b.sizeReference with
  | some r => r.name
  | none =>
    match b.sizeRef with
    | some r => r.name
    | none =>
      match b.shirtSize with
      | some (Sum.inl r) => r.name
      | some (Sum.inr s) => s
      | none =>
        match b.size with
        | some s => s
        | none => ShirtSize.M

/-- `extractType` from `src/lib/api.ts`: `shirtType` (object name or plain
string), then the legacy `type`, with the fixed fallback `Casual`. -/
def extractType (b : BackendShirt) : ShirtType :=
  match b.shirtType with
  | some (Sum.inl r) => r.name
  | some (Sum.inr t) => t
  | none =>
    match b.type with
    | some t => t
    | none => ShirtType.Casual

/-- The placeholder image URL used throughout `src/lib/api.ts`. -/
def defaultImageUrl : String :=
  "https://fastly.picsum.photos/id/193/200/200.jpg?hmac=JHo5tWHSRWvVbL3HX6rwDNdkvYPFojLtXkEGEUCgz6A"

/-- `extractImageUrl` from `src/lib/api.ts`: `imageURL || placeholder`
(the empty string is falsy). -/
def extractImageUrl (b : BackendShirt) : String :=
  match b.imageURL with
  | some u => if u = "" then defaultImageUrl else u
  | none => defaultImageUrl

/-- `mapBackendShirtToShirt` from `src/lib/api.ts`: record reference data
as a side effect, then copy the raw fields into the frontend `Shirt`:
`price` becomes `originalPrice` and `finalPrice` becomes `discountedPrice`
verbatim, `stock || 0` defaults to zero. -/
def mapBackendShirtToShirt (c : ReferenceDataCache) (b : BackendShirt) :
    ReferenceDataCache × Shirt :=
  (extractFromShirt c b,
    { id := b._id
      name := b.name
      description := b.description.getD ""
      imageUrl := extractImageUrl b
      originalPrice := b.price
      discountedPrice := b.finalPrice
      size := extractSize b
      type := extractType b
      stock := b.stock.getD 0 })

/-! ### Concrete data for the worked examples of the specification -/

/-- The single variant of design `d1` in the reconciliation example:
size M, final price 170. -/
def d1VariantM : Shirt :=
  { id := "s11", name := "DesignOne", description := "", imageUrl := ""
    originalPrice := 200, discountedPrice := 170
    size := ShirtSize.M, type := ShirtType.Casual, stock := 3 }

/-- The out-of-stock M variant of design `d2`: final price 100, stock 0. -/
def d2VariantM : Shirt :=
  { id := "s21", name := "DesignTwo", description := "", imageUrl := ""
    originalPrice := 120, discountedPrice := 100
    size := ShirtSize.M, type := ShirtType.Casual, stock := 0 }

/-- The in-stock L variant of design `d2`: final price 120, stock 5. -/
def d2VariantL : Shirt :=
  { id := "s22", name := "DesignTwo", description := "", imageUrl := ""
    originalPrice := 140, discountedPrice := 120
    size := ShirtSize.L, type := ShirtType.Casual, stock := 5 }

/-- The example cart of the specification: two units of design `d1` in
size M, one unit of design `d2` with no recorded size. -/
def exampleCart : Cart :=
  { items :=
      [ { shirtId := "d1", size := some ShirtSize.M, quantity := 2 }
      , { shirtId := "d2", size := none, quantity := 1 } ]
    totalAmount := 0 }

/-- Per-design fetch results of the example: `d1` has one M variant, `d2`
an out-of-stock M and an in-stock L variant; unknown designs fail. -/
def exampleFetch (d : String) : Except Unit (List Shirt) :=
  if d = "d1" then Except.ok [d1VariantM]
  else if d = "d2" then Except.ok [d2VariantM, d2VariantL]
  else Except.error ()

/-- Fetch results where the request for design `d2` fails: `d1` still has
its M variant, every other design id rejects. -/
def exampleFetchFail (d : String) : Except Unit (List Shirt) :=
  if d = "d1" then Except.ok [d1VariantM] else Except.error ()

/-- A legacy-line fallback fixture: an out-of-stock M variant. -/
def legacyVariantM : Shirt :=
  { id := "m0", name := "Legacy", description := "", imageUrl := ""
    originalPrice := 90, discountedPrice := 80
    size := ShirtSize.M, type := ShirtType.Formal, stock := 0 }

/-- A legacy-line fallback fixture: an L variant with stock 3. -/
def legacyVariantL : Shirt :=
  { id := "l3", name := "Legacy", description := "", imageUrl := ""
    originalPrice := 95, discountedPrice := 85
    size := ShirtSize.L, type := ShirtType.Formal, stock := 3 }

/-- A cart with lines for two distinct designs, used to witness the
quantity-floor behaviour. -/
def twoDesignCart : Cart :=
  { items :=
      [ { shirtId := "d", size := none, quantity := 2 }
      , { shirtId := "e", size := none, quantity := 1 } ]
    totalAmount := 0 }

/-- A raw backend record whose `finalPrice` exceeds its `price`, as the
backend could send it: the normalizer copies both fields verbatim. -/
def badBackendShirt : BackendShirt :=
  { _id := "bs1", name := "Over", description := none
    sizeRef := none, sizeReference := none, shirtSize := none, size := none
    shirtTypeId := none, shirtType := none, type := none
    price := 100, finalPrice := 150, stock := some 4, imageURL := none }

/-- A raw backend record with a populated size reference and a populated
type reference, used to witness cache recording. -/
def goodBackendShirt : BackendShirt :=
  { _id := "bs2", name := "Plain", description := some "d"
    sizeRef := some { _id := "sizM", name := ShirtSize.M, displayName := "Medium" }
    sizeReference := none, shirtSize := none, size := none
    shirtTypeId := none
    shirtType := some (Sum.inl { _id := "typC", name := ShirtType.Casual })
    type := none
    price := 100, finalPrice := 70, stock := some 2, imageURL := none }

/-! ### Helper lemmas -/

/-- Membership in the result of `updateFirst` comes from an untouched
element or from the image of an original element. -/
theorem mem_of_updateFirst {p : CartItem → Bool} {f : CartItem → CartItem}
    {l : List CartItem} {a : CartItem} (h : a ∈ updateFirst p f l) :
    a ∈ l ∨ ∃ x ∈ l, a = f x := by
  induction l with
  | nil => simp [updateFirst] at h
  | cons x xs ih =>
    by_cases hp : p x
    · simp only [updateFirst, if_pos hp] at h
      rcases List.mem_cons.mp h with h1 | h1
      · exact Or.inr ⟨x, List.mem_cons_self x xs, h1⟩
      · exact Or.inl (List.mem_cons_of_mem x h1)
    · simp only [updateFirst, if_neg hp] at h
      rcases List.mem_cons.mp h with h1 | h1
      · exact Or.inl (h1 ▸ List.mem_cons_self x xs)
      · rcases ih h1 with h2 | ⟨y, hy, hyf⟩
        · exact Or.inl (List.mem_cons_of_mem x h2)
        · exact Or.inr ⟨y, List.mem_cons_of_mem x hy, hyf⟩

/-- A property that holds of all original elements and of all images under
`f` holds of all elements after `updateFirst`. -/
theorem updateFirst_preserves {P : CartItem → Prop} {p : CartItem → Bool}
    {f : CartItem → CartItem} {l : List CartItem}
    (h : ∀ x ∈ l, P x) (hf : ∀ x ∈ l, P (f x)) :
    ∀ a ∈ updateFirst p f l, P a := by
  intro a ha
  rcases mem_of_updateFirst ha with h1 | ⟨x, hx, rfl⟩
  · exact h a h1
  · exact hf x hx

/-- `updateFirst` preserves the length of the list. -/
theorem length_updateFirst (p : CartItem → Bool) (f : CartItem → CartItem)
    (l : List CartItem) : (updateFirst p f l).length = l.length := by
  induction l with
  | nil => rfl
  | cons x xs ih =>
    by_cases hp : p x <;> simp [updateFirst, hp, ih]

/-- When `f` does not change the `shirtId` of an item, `updateFirst`
preserves pairwise distinctness of the ids. -/
theorem pairwise_updateFirst (f : CartItem → CartItem)
    (hf : ∀ x, (f x).shirtId = x.shirtId) (p : CartItem → Bool)
    {l : List CartItem}
    (h : l.Pairwise (fun a b => a.shirtId ≠ b.shirtId)) :
    (updateFirst p f l).Pairwise (fun a b => a.shirtId ≠ b.shirtId) := by
  induction l with
  | nil => exact h
  | cons x xs ih =>
    rcases List.pairwise_cons.mp h with ⟨hx, hxs⟩
    by_cases hp : p x
    · simp only [updateFirst, if_pos hp]
      refine List.pairwise_cons.mpr ⟨?_, hxs⟩
      intro b hb
      rw [hf x]
      exact hx b hb
    · simp only [updateFirst, if_neg hp]
      refine List.pairwise_cons.mpr ⟨?_, ih hxs⟩
      intro b hb
      rcases mem_of_updateFirst hb with h1 | ⟨y, hy, rfl⟩
      · exact hx b h1
      · rw [hf y]
        exact hx y hy

/-- Upserting the same key-value pair twice equals upserting it once. -/
theorem mset_idem {κ α : Type} [DecidableEq κ] (m : List (κ × α)) (k : κ) (v : α) :
    mset (mset m k v) k v = mset m k v := by
  induction m with
  | nil => simp [mset]
  | cons p rest ih =>
    by_cases hk : p.1 = k
    · simp [mset, hk]
    · simp [mset, hk, ih]

/-- `qtyList` distributes over list append. -/
theorem qtyList_append (l l' : List CartItem) (d : String) :
    qtyList (l ++ l') d = qtyList l d + qtyList l' d := by
  simp [qtyList, List.filter_append]


/-- `qtyList` over a cons: the head contributes its quantity exactly when
its `shirtId` matches. -/
theorem qtyList_cons (x : CartItem) (l : List CartItem) (d : String) :
    qtyList (x :: l) d = (if x.shirtId = d then x.quantity else 0) + qtyList l d := by
  by_cases hx : x.shirtId = d <;> simp [qtyList, List.filter_cons, hx]

/-- Adding `q` to the first line of `l` matching the design `d` raises the
quantity recorded for `d` by `q`, provided such a line exists. -/
theorem qtyList_updateFirst_add (l : List CartItem) (d : String) (q : Int)
    (h : l.any (fun item => item.shirtId = d) = true) :
    qtyList (updateFirst (fun item => item.shirtId = d)
      (fun item => { item with quantity := item.quantity + q }) l) d
      = qtyList l d + q := by
  induction l with
  | nil => simp at h
  | cons x xs ih =>
    by_cases hx : x.shirtId = d
    · rw [show (updateFirst (fun item => item.shirtId = d)
          (fun item => { item with quantity := item.quantity + q }) (x :: xs))
          = { x with quantity := x.quantity + q } :: xs by simp [updateFirst, hx]]
      rw [qtyList_cons, qtyList_cons]
      simp only [hx, if_pos]
      ring
    · have hxs : xs.any (fun item => item.shirtId = d) = true := by
        rcases List.any_eq_true.mp h with ⟨y, hy, hyd⟩
        rcases List.mem_cons.mp hy with rfl | hy2
        · exact absurd (of_decide_eq_true hyd) hx
        · exact List.any_eq_true.mpr ⟨y, hy2, hyd⟩
      rw [show (updateFirst (fun item => item.shirtId = d)
          (fun item => { item with quantity := item.quantity + q }) (x :: xs))
          = x :: updateFirst (fun item => item.shirtId = d)
              (fun item => { item with quantity := item.quantity + q }) xs
          by simp [updateFirst, hx]]
      rw [qtyList_cons, qtyList_cons, ih hxs]
      ring

/-- Every line in the cart produced by a sequence of store operations
satisfies `P`, provided `P` holds of every line of the starting cart and
is preserved by `addToCart` and `updateCartItemQuantity`. -/
theorem exec_items_pred (P : CartItem → Prop)
    (hadd : ∀ (d : String) (q : Int) (cart : Cart),
      (∀ i ∈ cart.items, P i) → ∀ i ∈ (addToCart d q cart).items, P i)
    (hset : ∀ (d : String) (q : Int) (cart : Cart),
      (∀ i ∈ cart.items, P i) → ∀ i ∈ (updateCartItemQuantity d q cart).items, P i)
    (ops : List CartOp) (cart : Cart) (hc : ∀ i ∈ cart.items, P i) :
    ∀ i ∈ (ops.foldl applyOp cart).items, P i := by
  induction ops generalizing cart with
  | nil => exact hc
  | cons op rest ih =>
    refine ih (applyOp cart op) ?_
    cases op with
    | add d q => exact hadd d q cart hc
    | setQty d q => exact hset d q cart hc
    | remove d =>
      intro i hi
      exact hc i (List.mem_of_mem_filter hi)
    | clear =>
      intro i hi
      simp [applyOp, emptyCart] at hi

/-- `addToCart` keeps every quantity at least 1 when the added quantity is
at least 1. -/
theorem addToCart_qty_inv (d : String) (q : Int) (hq : 1 ≤ q) (cart : Cart)
    (hc : ∀ i ∈ cart.items, 1 ≤ i.quantity) :
    ∀ i ∈ (addToCart d q cart).items, 1 ≤ i.quantity := by
  intro i hi
  unfold addToCart at hi
  split at hi
  · refine updateFirst_preserves hc (fun x hx => ?_) i hi
    have := hc x hx
    show 1 ≤ x.quantity + q
    omega
  · rcases List.mem_append.mp hi with h1 | h1
    · exact hc i h1
    · rw [List.mem_singleton] at h1
      subst h1
      exact hq

/-- `updateCartItemQuantity` keeps every quantity at least 1: a
non-positive quantity removes the line and a positive one overwrites with
a value of at least 1. -/
theorem updateCartItemQuantity_qty_inv (d : String) (q : Int) (cart : Cart)
    (hc : ∀ i ∈ cart.items, 1 ≤ i.quantity) :
    ∀ i ∈ (updateCartItemQuantity d q cart).items, 1 ≤ i.quantity := by
  intro i hi
  unfold updateCartItemQuantity removeFromCart at hi
  split at hi
  · split at hi
    · exact hc i (List.mem_of_mem_filter hi)
    · rename_i hq0
      refine updateFirst_preserves hc (fun x hx => ?_) i hi
      show 1 ≤ q
      omega
  · exact hc i hi

/-- `addToCart` never stores a size: merged lines keep their (absent)
size and appended lines carry `none`. -/
theorem addToCart_size_inv (d : String) (q : Int) (cart : Cart)
    (hc : ∀ i ∈ cart.items, i.size = none) :
    ∀ i ∈ (addToCart d q cart).items, i.size = none := by
  intro i hi
  unfold addToCart at hi
  split at hi
  · refine updateFirst_preserves hc (fun x hx => ?_) i hi
    show x.size = none
    exact hc x hx
  · rcases List.mem_append.mp hi with h1 | h1
    · exact hc i h1
    · rw [List.mem_singleton] at h1
      subst h1
      rfl

/-- `updateCartItemQuantity` never stores a size. -/
theorem updateCartItemQuantity_size_inv (d : String) (q : Int) (cart : Cart)
    (hc : ∀ i ∈ cart.items, i.size = none) :
    ∀ i ∈ (updateCartItemQuantity d q cart).items, i.size = none := by
  intro i hi
  unfold updateCartItemQuantity removeFromCart at hi
  split at hi
  · split at hi
    · exact hc i (List.mem_of_mem_filter hi)
    · refine updateFirst_preserves hc (fun x hx => ?_) i hi
      show x.size = none
      exact hc x hx
  · exact hc i hi

/-- `addToCart` preserves pairwise distinctness of line ids: merging does
not change the id list, and appending only happens for a fresh id. -/
theorem addToCart_pairwise (d : String) (q : Int) (cart : Cart)
    (hc : cart.items.Pairwise (fun a b => a.shirtId ≠ b.shirtId)) :
    (addToCart d q cart).items.Pairwise (fun a b => a.shirtId ≠ b.shirtId) := by
  unfold addToCart
  split
  · exact pairwise_updateFirst
      (fun item => { item with quantity := item.quantity + q }) (fun x => rfl) _ hc
  · rename_i hany
    rw [List.pairwise_append]
    refine ⟨hc, List.pairwise_singleton _ _, ?_⟩
    intro a ha b hb
    rw [List.mem_singleton] at hb
    subst hb
    intro heq
    exact hany (List.any_eq_true.mpr ⟨a, ha, decide_eq_true heq⟩)

/-- `updateCartItemQuantity` preserves pairwise distinctness of line ids. -/
theorem updateCartItemQuantity_pairwise (d : String) (q : Int) (cart : Cart)
    (hc : cart.items.Pairwise (fun a b => a.shirtId ≠ b.shirtId)) :
    (updateCartItemQuantity d q cart).items.Pairwise
      (fun a b => a.shirtId ≠ b.shirtId) := by
  unfold updateCartItemQuantity removeFromCart
  split
  · split
    · exact hc.sublist (List.filter_sublist _)
    · exact pairwise_updateFirst
        (fun item => { item with quantity := q }) (fun x => rfl) _ hc
  · exact hc

/-- Pairwise distinctness of line ids holds after any sequence of store
operations applied to a cart that satisfies it. -/
theorem exec_pairwise (ops : List CartOp) (cart : Cart)
    (hc : cart.items.Pairwise (fun a b => a.shirtId ≠ b.shirtId)) :
    (ops.foldl applyOp cart).items.Pairwise (fun a b => a.shirtId ≠ b.shirtId) := by
  induction ops generalizing cart with
  | nil => exact hc
  | cons op rest ih =>
    refine ih (applyOp cart op) ?_
    cases op with
    | add d q => exact addToCart_pairwise d q cart hc
    | setQty d q => exact updateCartItemQuantity_pairwise d q cart hc
    | remove d => exact hc.sublist (List.filter_sublist _)
    | clear => exact List.Pairwise.nil

/-! ### Claim theorems -/

/-- C1: at the reconciliation example of the specification (cart
`[(d1, M, 2), (d2, absent, 1)]`, design `d1` with one M variant at final
price 170, design `d2` with an out-of-stock M at 100 and an in-stock L at
120), the per-line resolution picks the expected variants, yet the
displayed total is 0 rather than the claimed 460: `calculateTotalAmount`
looks resolved variants up by `s.id === item.shirtId`, and the resolved
variants carry ShirtSize document ids (`s11`, `s22`), not the stored
design ids (`d1`, `d2`), so no line ever matches. -/
theorem reconciliation_total_at_spec_example :
    fetchCartShirts exampleCart exampleFetch = [d1VariantM, d2VariantL]
    ∧ refreshCartTotal exampleCart exampleFetch [] = 0
    ∧ d1VariantM.discountedPrice * 2 + d2VariantL.discountedPrice * 1 = 460 := by
  refine ⟨by decide, by decide, by decide⟩

/-- C2: with a non-empty variant list, the reconciler resolves a cart line
to the first variant with exactly matching size when the line records a
size and a match exists, otherwise to the first variant with positive
stock, otherwise to the first variant of the list. -/
theorem variant_selection_tiebreak (variants : List Shirt) (item : CartItem)
    (hne : variants ≠ []) :
    (∀ (s : ShirtSize) (v : Shirt), item.size = some s →
        variants.find? (fun x => x.size = s) = some v →
        resolveItem variants item = some v)
    ∧ (∀ w : Shirt,
        (item.size = none
          ∨ ∃ s, item.size = some s ∧ variants.find? (fun x => x.size = s) = none) →
        variants.find? (fun x => x.stock > 0) = some w →
        resolveItem variants item = some w)
    ∧ ((item.size = none
          ∨ ∃ s, item.size = some s ∧ variants.find? (fun x => x.size = s) = none) →
        variants.find? (fun x => x.stock > 0) = none →
        resolveItem variants item = variants.head?) := by
  have hemp : variants.isEmpty = false := by
    cases variants with
    | nil => exact absurd rfl hne
    | cons v vs => rfl
  refine ⟨?_, ?_, ?_⟩
  · intro s v hs hf
    simp [resolveItem, hemp, hs, hf]
  · intro w hmiss hf
    rcases hmiss with hnone | ⟨s, hs, hm⟩
    · simp [resolveItem, hemp, hnone, hf]
    · simp [resolveItem, hemp, hs, hm, hf]
  · intro hmiss hf
    rcases hmiss with hnone | ⟨s, hs, hm⟩
    · simp [resolveItem, hemp, hnone, hf]
    · simp [resolveItem, hemp, hs, hm, hf]

/-- Witness for C2: the legacy-line example of the specification, a line
with no recorded size against an out-of-stock M and an in-stock L,
resolves to the L variant. -/
theorem variant_selection_tiebreak_example :
    resolveItem [legacyVariantM, legacyVariantL]
      { shirtId := "g", size := none, quantity := 1 } = some legacyVariantL := by
  have h := (variant_selection_tiebreak [legacyVariantM, legacyVariantL]
      { shirtId := "g", size := none, quantity := 1 } (by simp)).2.1
  exact h legacyVariantL (Or.inl rfl) (by decide)

/-- C3: a failed variant fetch for one design id is isolated.  The failed
design resolves its lines to `none` (unresolved), resolution of any line
depends only on the fetch result of its own design id, and the whole
reconciliation (resolved list and displayed total) behaves exactly as if
the failed design had returned an empty variant list: the per-design
`catch` maps a rejection to `[]`, so the pass always completes. -/
theorem per_design_failure_isolated (cart : Cart)
    (fetch : String → Except Unit (List Shirt)) (d : String)
    (fallback : List Shirt) (hd : fetch d = Except.error ()) :
    (∀ item ∈ cart.items, item.shirtId = d →
        resolveItem (variantsFor fetch item.shirtId) item = none)
    ∧ (∀ (fetch2 : String → Except Unit (List Shirt)) (item : CartItem),
        fetch2 item.shirtId = fetch item.shirtId →
        resolveItem (variantsFor fetch2 item.shirtId) item
          = resolveItem (variantsFor fetch item.shirtId) item)
    ∧ fetchCartShirts cart fetch
        = fetchCartShirts cart (fun x => if x = d then Except.ok [] else fetch x)
    ∧ refreshCartTotal cart fetch fallback
        = refreshCartTotal cart (fun x => if x = d then Except.ok [] else fetch x)
            fallback := by
  have hv : variantsFor fetch
      = variantsFor (fun x => if x = d then Except.ok [] else fetch x) := by
    funext x
    by_cases hx : x = d
    · subst hx
      simp [variantsFor, hd]
    · simp [variantsFor, hx]
  refine ⟨?_, ?_, ?_, ?_⟩
  · intro item hmem hid
    rw [hid]
    simp [variantsFor, hd, resolveItem]
  · intro fetch2 item heq
    simp [variantsFor, heq]
  · unfold fetchCartShirts
    rw [hv]
  · unfold refreshCartTotal fetchCartShirts
    rw [hv]

/-- Witness for C3: with the fetch for design `d2` failing, the `d2` line
of the example cart is unresolved. -/
theorem per_design_failure_isolated_example :
    resolveItem (variantsFor exampleFetchFail "d2")
      { shirtId := "d2", size := none, quantity := 1 } = none := by
  have h := (per_design_failure_isolated exampleCart exampleFetchFail "d2" []
      rfl).1
  exact h { shirtId := "d2", size := none, quantity := 1 } (by decide) rfl

/-- C4 counterexample: the stored text `null` is invalid cart data, yet
`JSON.parse` accepts it, so `getCart` returns the JSON value `null`
unchanged instead of the empty cart. -/
theorem corrupt_storage_null_returned :
    getCart (some (Except.ok Json.null)) = Json.null
    ∧ getCart (some (Except.ok Json.null)) ≠ emptyCartJson := by
  refine ⟨rfl, ?_⟩
  intro h
  exact Json.noConfusion h

/-- C4 amended: `getCart` never throws; it returns the empty cart exactly
when the persisted value is absent or fails to parse as JSON, and returns
any successfully parsed JSON value as is, even when that value is not a
cart. -/
theorem getCart_recovery :
    getCart none = emptyCartJson
    ∧ (∀ e : Unit, getCart (some (Except.error e)) = emptyCartJson)
    ∧ (∀ v : Json, getCart (some (Except.ok v)) = v) :=
  ⟨rfl, fun _ => rfl, fun _ => rfl⟩

/-- C5: calling `updateCartItemQuantity` with a quantity of zero or below
leaves no line with the given design id in the cart, hence no line with
any `(designId, sizeName)` pair built on that design id. -/
theorem setQuantity_floor (cart : Cart) (d : String) (q : Int) (hq : q ≤ 0) :
    ∀ item ∈ (updateCartItemQuantity d q cart).items, item.shirtId ≠ d := by
  intro item hmem
  unfold updateCartItemQuantity at hmem
  by_cases hany : (cart.items.any (fun item => item.shirtId = d)) = true
  · rw [if_pos hany, if_pos hq] at hmem
    unfold removeFromCart at hmem
    have h2 := (List.mem_filter.mp hmem).2
    simpa using h2
  · rw [if_neg hany] at hmem
    intro heq
    exact hany (List.any_eq_true.mpr ⟨item, hmem, decide_eq_true heq⟩)

/-- Witness for C5: setting quantity 0 on design `d` of the two-design
cart leaves the `e` line, whose id differs from `d`. -/
theorem setQuantity_floor_example :
    ({ shirtId := "e", size := none, quantity := 1 } : CartItem)
        ∈ (updateCartItemQuantity "d" 0 twoDesignCart).items
    ∧ ({ shirtId := "e", size := none, quantity := 1 } : CartItem).shirtId ≠ "d" := by
  refine ⟨by decide, ?_⟩
  exact setQuantity_floor twoDesignCart "d" 0 (by decide)
    { shirtId := "e", size := none, quantity := 1 } (by decide)

/-- C6 counterexample: `addToCart` applies no floor to its quantity
argument, so adding a line with quantity 0 from the empty cart keeps a
line whose quantity is 0, violating the claimed invariant. -/
theorem add_zero_quantity_kept :
    (execOps [CartOp.add "d" 0]).items
      = [{ shirtId := "d", size := none, quantity := 0 }]
    ∧ ¬(1 ≤ ({ shirtId := "d", size := none, quantity := 0 } : CartItem).quantity) := by
  exact ⟨by decide, by decide⟩

/-- C6 amended: after any sequence of store operations in which every
`add` carries a positive quantity (`setQuantity`, `remove` and `clear`
unrestricted), every line of the resulting cart has quantity at least 1;
`setQuantity` with a non-positive quantity deletes the line instead of
keeping it. -/
theorem quantity_floor_invariant (ops : List CartOp)
    (h : ops.all addQtyPositive = true) :
    ∀ item ∈ (execOps ops).items, 1 ≤ item.quantity := by
  suffices h2 : ∀ (ops2 : List CartOp) (cart : Cart), ops2.all addQtyPositive = true →
      (∀ i ∈ cart.items, 1 ≤ i.quantity) →
      ∀ i ∈ (ops2.foldl applyOp cart).items, 1 ≤ i.quantity by
    refine h2 ops emptyCart h ?_
    intro i hi
    simp [emptyCart] at hi
  intro ops2
  induction ops2 with
  | nil =>
    intro cart _ hc
    exact hc
  | cons op rest ih =>
    intro cart hall hc
    rw [List.all_cons, Bool.and_eq_true] at hall
    refine ih (applyOp cart op) hall.2 ?_
    cases op with
    | add d q =>
      have hq : 1 ≤ q := by simpa [addQtyPositive] using hall.1
      exact addToCart_qty_inv d q hq cart hc
    | setQty d q => exact updateCartItemQuantity_qty_inv d q cart hc
    | remove d =>
      intro i hi
      exact hc i (List.mem_of_mem_filter hi)
    | clear =>
      intro i hi
      simp [applyOp, emptyCart] at hi

/-- Witness for C6 (amended): after an add of 2 and a setQuantity to 5 on
design `d`, the resulting line has quantity 5, which is at least 1. -/
theorem quantity_floor_invariant_example :
    1 ≤ ({ shirtId := "d", size := none, quantity := 5 } : CartItem).quantity :=
  quantity_floor_invariant [CartOp.add "d" 2, CartOp.setQty "d" 5] (by decide)
    { shirtId := "d", size := none, quantity := 5 } (by decide)

/-- C7: after any sequence of store operations from the empty cart, no
two lines share the same `(designId, sizeName)` pair; `addToCart` merges
into an existing line with the same design id by summing quantities
(preserving the number of lines) and otherwise appends a fresh line with
no size.  On store-produced carts every line has no size, so merging by
design id coincides with merging by the `(designId, sizeName)` pair. -/
theorem cart_line_uniqueness (ops : List CartOp) :
    ((execOps ops).items.Pairwise
        (fun a b => ¬(a.shirtId = b.shirtId ∧ a.size = b.size)))
    ∧ (∀ (d : String) (q : Int),
        qtyOf (addToCart d q (execOps ops)) d = qtyOf (execOps ops) d + q)
    ∧ (∀ (d : String) (q : Int),
        (execOps ops).items.any (fun item => item.shirtId = d) = false →
        (addToCart d q (execOps ops)).items
          = (execOps ops).items ++ [{ shirtId := d, size := none, quantity := q }])
    ∧ (∀ (d : String) (q : Int),
        (execOps ops).items.any (fun item => item.shirtId = d) = true →
        (addToCart d q (execOps ops)).items.length = (execOps ops).items.length) := by
  refine ⟨?_, ?_, ?_, ?_⟩
  · have h := exec_pairwise ops emptyCart List.Pairwise.nil
    exact h.imp (fun hne hand => hne hand.1)
  · intro d q
    unfold qtyOf addToCart
    by_cases hany : ((execOps ops).items.any (fun item => item.shirtId = d)) = true
    · rw [if_pos hany]
      exact qtyList_updateFirst_add _ d q hany
    · rw [if_neg hany]
      rw [show ({ (execOps ops) with
            items := (execOps ops).items
              ++ [{ shirtId := d, size := none, quantity := q }] } : Cart).items
          = (execOps ops).items ++ [{ shirtId := d, size := none, quantity := q }]
          from rfl]
      rw [qtyList_append]
      simp [qtyList]
  · intro d q hfalse
    unfold addToCart
    rw [if_neg (by rw [hfalse]; simp)]
  · intro d q hany
    unfold addToCart
    rw [if_pos hany]
    exact length_updateFirst _ _ _

/-- Witness for C7: adding design `e` to a cart holding only design `d`
appends a fresh sizeless line. -/
theorem cart_line_uniqueness_example :
    (addToCart "e" 3 (execOps [CartOp.add "d" 1, CartOp.add "d" 2])).items
      = (execOps [CartOp.add "d" 1, CartOp.add "d" 2]).items
        ++ [{ shirtId := "e", size := none, quantity := 3 }] :=
  (cart_line_uniqueness [CartOp.add "d" 1, CartOp.add "d" 2]).2.2.1 "e" 3 (by decide)

/-- Recording the same raw record twice leaves the reference cache in the
same state as recording it once: every `Map.set` repeats an identical
key-value upsert. -/
theorem extractFromShirt_idem (c : ReferenceDataCache) (b : BackendShirt) :
    extractFromShirt (extractFromShirt c b) b = extractFromShirt c b := by
  unfold extractFromShirt recordSizeFromShirt recordTypeFromShirt
  rcases hsr : b.sizeRef with _ | r1 <;>
    rcases hsf : b.sizeReference with _ | r2 <;>
      rcases hst : b.shirtType with _ | (r3 | s3) <;>
        rcases hty : b.type with _ | t <;>
          rcases hid : b.shirtTypeId with _ | tid <;>
            dsimp only [] <;>
              (try split_ifs) <;>
                simp [mset_idem]

/-- C8: recording a raw backend record (in particular one carrying both a
reference identifier and a human-readable name) twice through
`extractFromShirt` yields the same cache state as recording it once, so
every subsequent `getSizeId`, `getTypeId`, `getSizeName` and `getTypeName`
lookup returns the same result. -/
theorem record_idempotent (c : ReferenceDataCache) (b : BackendShirt) :
    extractFromShirt (extractFromShirt c b) b = extractFromShirt c b
    ∧ (∀ s : ShirtSize, getSizeId (extractFromShirt (extractFromShirt c b) b) s
        = getSizeId (extractFromShirt c b) s)
    ∧ (∀ t : ShirtType, getTypeId (extractFromShirt (extractFromShirt c b) b) t
        = getTypeId (extractFromShirt c b) t)
    ∧ (∀ i : String, getSizeName (extractFromShirt (extractFromShirt c b) b) i
        = getSizeName (extractFromShirt c b) i)
    ∧ (∀ i : String, getTypeName (extractFromShirt (extractFromShirt c b) b) i
        = getTypeName (extractFromShirt c b) i) := by
  have h := extractFromShirt_idem c b
  exact ⟨h, fun s => by rw [h], fun t => by rw [h], fun i => by rw [h],
    fun j => by rw [h]⟩

/-- C9 counterexample: the normalizer copies the raw `price` and
`finalPrice` fields verbatim, so a raw record whose `finalPrice` exceeds
its `price` yields a Variant with `discountedPrice` above
`originalPrice`. -/
theorem price_monotonicity_violated :
    (mapBackendShirtToShirt emptyReferenceCache badBackendShirt).2.originalPrice = 100
    ∧ (mapBackendShirtToShirt emptyReferenceCache badBackendShirt).2.discountedPrice = 150
    ∧ ¬((mapBackendShirtToShirt emptyReferenceCache badBackendShirt).2.discountedPrice
        ≤ (mapBackendShirtToShirt emptyReferenceCache badBackendShirt).2.originalPrice) := by
  exact ⟨rfl, rfl, by decide⟩

/-- C9 amended: the normalizer imposes no clamping of its own; the
produced Variant satisfies `finalPrice <= basePrice` and `finalPrice >= 0`
exactly when the raw record already satisfies the corresponding
inequalities on its `finalPrice` and `price` fields. -/
theorem price_monotonicity_conditional (c : ReferenceDataCache) (b : BackendShirt)
    (h1 : b.finalPrice ≤ b.price) (h2 : 0 ≤ b.finalPrice) :
    (mapBackendShirtToShirt c b).2.discountedPrice
        ≤ (mapBackendShirtToShirt c b).2.originalPrice
    ∧ 0 ≤ (mapBackendShirtToShirt c b).2.discountedPrice :=
  ⟨h1, h2⟩

/-- Witness for C9 (amended): a raw record with `price` 100 and
`finalPrice` 70 yields a Variant with `discountedPrice` at most
`originalPrice`. -/
theorem price_monotonicity_conditional_example :
    (mapBackendShirtToShirt emptyReferenceCache goodBackendShirt).2.discountedPrice
      ≤ (mapBackendShirtToShirt emptyReferenceCache goodBackendShirt).2.originalPrice :=
  (price_monotonicity_conditional emptyReferenceCache goodBackendShirt
    (by decide) (by decide)).1

/-- C10: every cart line produced by the store operations themselves
carries no size (the `addToCart` signature has no size parameter, so the
third argument some callers pass is discarded), and for a line without a
size the reconciler skips the exact-size-match branch entirely, resolving
by first-in-stock-else-first only. -/
theorem add_discards_size (ops : List CartOp) :
    (∀ item ∈ (execOps ops).items, item.size = none)
    ∧ (∀ (variants : List Shirt) (item : CartItem), item.size = none →
        resolveItem variants item
          = if variants.isEmpty then none
            else
              match variants.find? (fun v => v.stock > 0) with
              | some v => some v
              | none => variants.head?) := by
  constructor
  · refine exec_items_pred (fun i => i.size = none)
      (fun d q cart hc => addToCart_size_inv d q cart hc)
      (fun d q cart hc => updateCartItemQuantity_size_inv d q cart hc)
      ops emptyCart ?_
    intro i hi
    simp [emptyCart] at hi
  · intro variants item hnone
    simp [resolveItem, hnone]

/-- Witness for C10: a line added by the store has no size, and a
sizeless line against an out-of-stock M and an in-stock L resolves to the
in-stock L (never through the exact-match branch). -/
theorem add_discards_size_example :
    ({ shirtId := "d", size := none, quantity := 2 } : CartItem).size = none
    ∧ resolveItem [legacyVariantM, legacyVariantL]
        { shirtId := "w", size := none, quantity := 1 } = some legacyVariantL := by
  constructor
  · exact (add_discards_size [CartOp.add "d" 2]).1
      { shirtId := "d", size := none, quantity := 2 } (by decide)
  · rw [(add_discards_size []).2 [legacyVariantM, legacyVariantL]
      { shirtId := "w", size := none, quantity := 1 } rfl]
    decide
